import Mathlib

/-!
Verification of the spectroscope repository (spectroscopic parameter
inference).  The Python sources are shallowly embedded: numpy arrays of
floats become lists of rationals, dictionaries become association lists,
and code that can raise a Python exception returns an `Except PyError`
value.  Every definition is transcribed from the corresponding function in
`src/scope/models.py` or `src/sick/models/model.py`; the file and line of
the source are recorded next to each definition.
-/

namespace Spectroscope

/-- Model of the Python exceptions that the embedded code can raise.
`runtimeError` carries the (0-based) sampler step at which the guard fired,
mirroring where `RuntimeError` is raised inside the sampling loop. -/
inductive PyError where
  | valueError (msg : String)
  | typeError (msg : String)
  | indexError
  | keyError (key : String)
  | nameError (name : String)
  | runtimeError (step : Nat)
deriving DecidableEq

/-- Decidable equality of embedded call results, so concrete runs of the
embedded code can be checked by evaluation. -/
instance {ε α : Type} [DecidableEq ε] [DecidableEq α] :
    DecidableEq (Except ε α)
  | .ok x, .ok y =>
      match decEq x y with
      | isTrue h => isTrue (h ▸ rfl)
      | isFalse h => isFalse (fun hh => h (Except.ok.inj hh))
  | .ok _, .error _ => isFalse (fun hh => Except.noConfusion hh)
  | .error _, .ok _ => isFalse (fun hh => Except.noConfusion hh)
  | .error x, .error y =>
      match decEq x y with
      | isTrue h => isTrue (h ▸ rfl)
      | isFalse h => isFalse (fun hh => h (Except.error.inj hh))

/-! ## C7: walker-count validation, `Model.infer`, model.py lines 316-318

    if kwd["walkers"] % 2 > 0 or kwd["walkers"] < 2 * len(parameters):
        raise ValueError("the number of walkers must be an even number and "
            "be at least twice the number of model parameters")
-/

/-- Message of the ValueError raised by the walker validation. -/
def walkersMsg : String :=
  "the number of walkers must be an even number and be at least twice the number of model parameters"

/-- Embedding of the walker-count validation at the top of `Model.infer`
(model.py lines 316-318).  Python's `%` on a positive modulus agrees with
`Int.emod`. -/
def walkersCheck (walkers : Int) (nParameters : Nat) : Except PyError Unit :=
  if walkers % 2 > 0 ∨ walkers < 2 * (nParameters : Int) then
    .error (.valueError walkersMsg)
  else
    .ok ()

/-! ## C6: acceptance-fraction guard, `Model._sample`, model.py lines 596-639

    for i, (pos, lnprob, rstate) in enumerate(sampler.sample(...)):
        mean_acceptance_fraction[i] = sampler.acceptance_fraction.mean()
        ...
        if mean_acceptance_fraction[i] in (0, 1):
            raise RuntimeError("mean acceptance fraction is ...")

The ensemble sampler itself is external (emcee); the loop is embedded as a
function of the per-step mean acceptance fractions it observes. -/

/-- One pass of the `_sample` loop body starting at step `i`: record the
step's mean acceptance fraction and raise `RuntimeError` as soon as it is
exactly 0 or exactly 1 (membership test `in (0, 1)`). -/
def sampleLoopFrom : List ℚ → Nat → Except PyError Unit
  | [], _ => .ok ()
  | a :: rest, i =>
      if a = 0 ∨ a = 1 then .error (.runtimeError i)
      else sampleLoopFrom rest (i + 1)

/-- Embedding of the step loop of `Model._sample` (model.py lines 596-639),
as a function of the sequence of observed mean acceptance fractions. -/
def sampleLoop (afs : List ℚ) : Except PyError Unit :=
  sampleLoopFrom afs 0

/-! ## C10: exact grid lookup, `Models.check_grid_point`, models.py lines 136-151

    index = np.where(np.all(np.equal(self.grid_points - point, np.zeros(len(point))), 1))[0]
    if len(index) > 0:
        return index[0]
    return False
-/

/-- The two runtime types `check_grid_point` can return: a (numpy) integer
index, or the Python boolean `False`. -/
inductive PyRet where
  | int (n : Nat)
  | bool (b : Bool)
deriving DecidableEq

/-- Python's `==` between a `check_grid_point` result and an integer:
booleans compare as their integer value (`False == 0` is `True`). -/
def pyEqInt : PyRet → Nat → Bool
  | .int n, m => n == m
  | .bool b, m => (if b then 1 else 0) == m

/-- Row test of `check_grid_point`: all components of `row - point` equal
zero (`np.all(np.equal(self.grid_points - point, zeros), 1)` for one row;
rows and the query point have the grid's common dimensionality). -/
def rowMatch (row point : List ℚ) : Bool :=
  (List.zipWith (fun a b => a - b) row point).all (fun d => d == 0)

/-- Index of the first matching row at or after position `k`
(`np.where(...)[0]` lists matching indices in increasing order, and
`index[0]` takes the first). -/
def firstMatchIdx (point : List ℚ) : List (List ℚ) → Nat → Option Nat
  | [], _ => none
  | r :: rest, k =>
      if rowMatch r point then some k else firstMatchIdx point rest (k + 1)

/-- Embedding of `Models.check_grid_point` (models.py lines 136-151):
the index of the first row equal to `point` componentwise, or the Python
boolean `False` when no row matches. -/
def check_grid_point (grid : List (List ℚ)) (point : List ℚ) : PyRet :=
  match firstMatchIdx point grid 0 with
  | some i => .int i
  | none => .bool false

/-! ## C5: continuum application, `Model.__call__`, model.py lines 1014-1022

    j, coeff = 0, []
    while theta.get("continuum_{0}_{1}".format(channel, j), None) is not None:
        coeff.append(theta["continuum_{0}_{1}".format(channel, j)])
        j += 1
    continuum = np.abs(np.polyval(coeff[::-1], spectrum.disp)) if coeff else 1.
    channel_fluxes *= continuum
-/

/-- The theta key `"continuum_{channel}_{j}"`. -/
def contKey (channel : String) (j : Nat) : String :=
  "continuum_" ++ channel ++ "_" ++ toString j

/-- The while loop of model.py lines 1015-1018, gathering
`continuum_{channel}_{j}` coefficients for `j = 0, 1, ...` until the first
missing key.  `theta` is a Python dict (keys unique), so the loop probes at
most `theta.length` distinct present keys; the fuel `theta.length + 1`
therefore never runs out on the paths the theorems use. -/
def gatherCoeffAux (theta : List (String × ℚ)) (channel : String) :
    Nat → Nat → List ℚ
  | 0, _ => []
  | fuel + 1, j =>
      match theta.lookup (contKey channel j) with
      | none => []
      | some v => v :: gatherCoeffAux theta channel fuel (j + 1)

/-- Coefficient gathering of `Model.__call__` for one channel. -/
def gatherCoeff (theta : List (String × ℚ)) (channel : String) : List ℚ :=
  gatherCoeffAux theta channel (theta.length + 1) 0

/-- `np.polyval(p, x)`: Horner evaluation with the highest-degree
coefficient first. -/
def npPolyval (p : List ℚ) (x : ℚ) : ℚ :=
  p.foldl (fun acc c => acc * x + c) 0

/-- Embedding of the continuum application step of `Model.__call__`
(model.py lines 1014-1022): gather the channel's coefficients, evaluate
`np.abs(np.polyval(coeff[::-1], disp))` per pixel, and multiply the binned
channel fluxes by it; with no index-0 coefficient the fluxes are multiplied
by the scalar `1.` (returned unchanged). -/
def applyContinuum (theta : List (String × ℚ)) (channel : String)
    (disp fluxes : List ℚ) : List ℚ :=
  let coeff := gatherCoeff theta channel
  if coeff.isEmpty then fluxes
  else (disp.zip fluxes).map (fun wf => wf.2 * |npPolyval coeff.reverse wf.1|)

/-! ## C9: precomputed binning transforms,
`Model._create_convolution_functions`, model.py lines 652-824

For each matched channel the method builds one closure
`convolution_function(w, f, z, R)`.  The decision table (source comments,
options 1-5) branches on `fast_binning` and on whether redshift or
resolution are free parameters for the channel.  The external numeric
kernels (`specutils.sample.resample`, the box factories — not under `src/`
— and scipy's `gaussian_filter1d`) are oracle fields of `BinnerCtx`; the
selection logic and the closures' argument handling are transcribed from
the source. -/

/-- `np.interp(x, xp, fp, left=nan, right=nan)` at one abscissa: linear
interpolation on the (increasing) sample points `xp`, `none` (NaN) outside
their range. -/
def interpAt : List (ℚ × ℚ) → ℚ → Option ℚ
  | [], _ => none
  | [(x0, y0)], x => if x = x0 then some y0 else none
  | (x0, y0) :: (x1, y1) :: rest, x =>
      if x < x0 then none
      else if x ≤ x1 then some (y0 + (y1 - y0) * (x - x0) / (x1 - x0))
      else interpAt ((x1, y1) :: rest) x

/-- `np.interp(xs, xp, fp, left=np.nan, right=np.nan)`; NaN is `none`. -/
def npInterp (xs xp fp : List ℚ) : List (Option ℚ) :=
  xs.map (interpAt (xp.zip fp))

/-- Mean of a list (numpy `.mean()`); division by zero only for an empty
list, which the source never passes. -/
def listMean (l : List ℚ) : ℚ := l.sum / l.length

/-- `np.diff`: successive differences. -/
def npDiff (l : List ℚ) : List ℚ :=
  List.zipWith (fun b a => b - a) l.tail l

/-- Oracles for the external numeric kernels used by
`_create_convolution_functions`, plus the model wavelength grid
`generate.wavelengths[-1]`.  `resampleMatrix wl disp` stands for the linear
operator `specutils.sample.resample(wl, disp)` applied as `f * matrix`;
`boxFactoryMatrix` and `blurryBoxFactoryMatrix` stand for
`f * matrix(z)` and `f * matrix(R, z)` of the two factories; these modules
are not under `src/`.  `gaussianFilter sigma f` stands for scipy's
`gaussian_filter1d(f, sigma)`. -/
structure BinnerCtx where
  modelWavelengths : List ℚ
  resampleMatrix : List ℚ → List ℚ → List ℚ → List ℚ
  boxFactoryMatrix : List ℚ → List ℚ → ℚ → List ℚ → List ℚ
  blurryBoxFactoryMatrix : List ℚ → List ℚ → ℚ → ℚ → List ℚ → List ℚ
  gaussianFilter : ℚ → List ℚ → List ℚ

/-- Embedding of the per-channel branch of
`Model._create_convolution_functions` (model.py lines 714-820).  Arguments:
whether `fast_binning` is configured, whether the channel has free redshift
or resolution parameters, the fixed redshift `fixedZ` (option 1, matrix
mode), and the observed dispersion `disp` captured at creation time.  The
result is the closure `convolution_function(w, f, z, R)`; matrix-mode
outputs carry no NaN so they are wrapped in `some`. -/
def createConvolutionFunction (ctx : BinnerCtx) (fastBinning : Bool)
    (redshiftFree resolutionFree : Bool) (fixedZ : ℚ) (disp : List ℚ) :
    List ℚ → List ℚ → ℚ → ℚ → List (Option ℚ) :=
  if !redshiftFree && !resolutionFree then
    -- Option 1: no redshift and no resolution parameters.
    if fastBinning then
      -- lambda w, f, z, *a: np.interp(w, generate.wavelengths[-1], f,
      --     left=np.nan, right=np.nan)
      fun w f _z _R => npInterp w ctx.modelWavelengths f
    else
      -- matrix = specutils.sample.resample(
      --     generate.wavelengths[-1] * (1 + z), spectrum.disp)
      -- lambda w, f, *a: f * matrix
      let mw := ctx.modelWavelengths.map (fun x => x * (1 + fixedZ))
      fun _w f _z _R => (ctx.resampleMatrix mw disp f).map some
  else if fastBinning then
    if resolutionFree then
      -- R_scale = disp.mean() / (2.35482 * np.diff(disp).mean());
      -- convolve when R > 0, then interpolate at the redshifted grid.
      let rScale := listMean disp / ((235482 / 100000) * listMean (npDiff disp))
      fun w f z R =>
        let g := if R > 0 then ctx.gaussianFilter (rScale / R) f else f
        npInterp w (ctx.modelWavelengths.map (fun x => x * (1 + z))) g
    else
      -- lambda w, f, z, *a: np.interp(w, generate.wavelengths[-1] * (1 + z), f, ...)
      fun w f z _R => npInterp w (ctx.modelWavelengths.map (fun x => x * (1 + z))) f
  else if redshiftFree && !resolutionFree then
    -- Option 3: lambda w, f, z, *a: f * matrix(z)
    fun _w f z _R => (ctx.boxFactoryMatrix disp ctx.modelWavelengths z f).map some
  else
    -- Options 4 and 5: lambda w, f, z, R, *a: f * matrix(R, z)
    fun _w f z R => (ctx.blurryBoxFactoryMatrix disp ctx.modelWavelengths R z f).map some

/-! ## C1: auto-convergence loop of `Model.infer`, model.py lines 428-528

The loop body is transcribed below.  The autocorrelation estimators
(`utils.estimate_tau_exp`, `utils.estimate_tau_int` — the `sick/utils`
module is not under `src/`) are oracle parameters; `tauExpEst` returning
`none` models the `except:` fallback `tau_exp = total_steps`, and the
batch `self._sample(...)` call is the oracle `sampleBatch`.  Chains are
never reset in auto mode, so the chain length equals `total_steps`. -/

/-- The keyword-default dictionary `kwd` of `Model.infer` (model.py lines
295-309), as an association list; Python booleans count as 0/1, and
`auto_convergence` is 1 since the auto branch is the one modelled. -/
def kwdDefault : List (String × ℚ) :=
  [("auto_convergence", 1), ("walkers", 100), ("burn", 2000),
   ("sample", 2000), ("minimum_sample", 2000), ("maximum_sample", 100000),
   ("n_tau_exp_as_burn_in", 3),
   ("minimum_effective_independent_samples", 100),
   ("check_convergence_frequency", 1000), ("a", 2), ("threads", 1)]

/-- Python dict subscription `kwd[key]`: `KeyError` when the key is
absent. -/
def kwdGet (kwd : List (String × ℚ)) (key : String) : Except PyError ℚ :=
  match kwd.lookup key with
  | some v => .ok v
  | none => .error (.keyError key)

/-- `str.format` positional-field fetch: field `{k}` of the argument tuple;
an index past the tuple raises `IndexError` ("tuple index out of range").
Line 483 formats a two-field template with a single argument. -/
def formatField (args : List String) (k : Nat) : Except PyError String :=
  match args.get? k with
  | some s => .ok s
  | none => .error .indexError

/-- `last_state.extend(pos, lnprob, rstate)` (model.py line 512):
CPython's `list.extend` accepts exactly one argument, so this call raises
`TypeError` before touching the list. -/
def extendThreeArgs : Except PyError Unit :=
  .error (.typeError "extend takes exactly one argument, 3 given")

/-- Local-variable read: `NameError` (`UnboundLocalError`) when the name
was never assigned on the executed path. -/
def localLookup (bound : List String) (name : String) : Except PyError Unit :=
  if name ∈ bound then .ok () else .error (.nameError name)

/-- Locals of `Model.infer` that are assigned on every path on which the
auto-convergence while loop exits without `converged` being set (the
`burn_chains`, `burn_ln_probabilities`, `production_chains` and
`production_ln_probabilities` assignments sit only under the converged
branch, lines 487-491). -/
def boundLocalsAtLoopExit : List String :=
  ["kwd", "parameters", "sampler", "pos", "lnprob", "rstate",
   "acceptance_fractions", "last_state", "converged", "total_steps",
   "min_eis_required", "iterations"]

/-- The `try: tau_exp, ... = utils.estimate_tau_exp(sampler.chain)` block
(model.py lines 439-449): on an estimator exception (`none`) the code
falls back to `tau_exp = total_steps`. -/
def tauExpOf (tauExpEst : ℚ → Option ℚ) (chainLen totalSteps : ℚ) : ℚ :=
  match tauExpEst chainLen with
  | some t => t
  | none => totalSteps

/-- Embedding of one pass through the auto-convergence logic of
`Model.infer` (model.py lines 430-528): the while guard, the convergence
check, the follow-up batch, and — when the guard fails — the fall-through
to the post-loop `np.hstack([burn_chains, production_chains])`.  Every
branch of the body raises (proved below), so no later iteration of the
while loop is reachable and a single pass models the whole loop.
State: `totalSteps` = steps taken so far, `chainLen` = current chain
length (equal in auto mode; the source's locals
`burn = int(np.ceil(tau_exp)) * kwd["n_tau_exp_as_burn_in"]` and
`sample = sampler.chain.shape[1] - burn` are written out inline). -/
def inferAutoStep (kwd : List (String × ℚ)) (tauExpEst : ℚ → Option ℚ)
    (tauIntEst : ℚ → ℚ → List ℚ) (sampleBatch : Except PyError Unit)
    (totalSteps chainLen : ℚ) : Except PyError Unit := do
  let minEis ← kwdGet kwd "minimum_effective_independent_samples"
  let maxSample ← kwdGet kwd "maximum_sample"
  if maxSample > totalSteps then
    let nTau ← kwdGet kwd "n_tau_exp_as_burn_in"
    -- if 1 > sample, with sample = chain length - ceil(tau_exp) * n_tau
    if chainLen - (⌈tauExpOf tauExpEst chainLen totalSteps⌉ : ℚ) * nTau < 1 then
      -- "Sampler has not converged because ..."; then keep sampling
      let _freq ← kwdGet kwd "check_convergence_frequency"
      let _ ← sampleBatch
      let _ ← extendThreeArgs
      .ok ()
    else
      let walkers ← kwdGet kwd "walkers"
      -- num_effective = (kwd["walkers"] * sample) / (2 * tau_int),
      -- per parameter; converged iff num_effective.min() > min_eis
      if (List.map
          (fun t => walkers
            * (chainLen - (⌈tauExpOf tauExpEst chainLen totalSteps⌉ : ℚ) * nTau)
            / (2 * t))
          (tauIntEst ((⌈tauExpOf tauExpEst chainLen totalSteps⌉ : ℚ) * nTau)
            chainLen)).min?.getD 0 > minEis then
        -- "Convergence achieved ({0:.0f} > {1:.0f})".format(bool): two
        -- fields, one argument — field {1} is out of range.
        let _f0 ← formatField ["True"] 0
        let _f1 ← formatField ["True"] 1
        .ok ()
      else
        -- "... ({0:.0f})".format(kwd["n"]) — "n" is not a key of kwd.
        let _n ← kwdGet kwd "n"
        let _freq ← kwdGet kwd "check_convergence_frequency"
        let _ ← sampleBatch
        let _ ← extendThreeArgs
        .ok ()
  else
    -- loop exits unconverged: warn EXHAUSTED, then
    -- chains = np.hstack([burn_chains, production_chains])
    let _ ← localLookup boundLocalsAtLoopExit "burn_chains"
    .ok ()

/-! ## C2/C8: `Models.get_nearest_neighbours`, models.py lines 100-133

    if len(point) != self.grid_points.shape[1]:
        raise ValueError("point length ... is incompatible with grid shape ...")
    try: n = int(n)
    except TypeError:
        raise TypeError("number of neighbours must be an integer-type")
    if 1 > n:
        raise ValueError("number of neighbours must be a positive integer-type")
    indices = set(np.arange(len(self.grid_points)))
    for i, point_value in enumerate(point):
        difference = np.unique(self.grid_points[:, i] - point_value)
        limit_min = difference[np.where(difference < 0)][-n:][0] + point_value
        limit_max = difference[np.where(difference > 0)][:n][-1] + point_value
        these_indices = np.where((limit_max >= self.grid_points[:, i])
            & (self.grid_points[:, i] >= limit_min))[0]
        indices.intersection_update(these_indices)
    return np.array(list(indices))
-/

/-- The Python values the `n` argument can take at runtime. -/
inductive PyNum where
  | int (z : Int)
  | float (q : ℚ)
  | str (s : String)
  | none_

/-- Truncation toward zero, the rounding of Python's `int(float)`. -/
def ratTrunc (q : ℚ) : Int :=
  if q < 0 then -(⌊-q⌋) else ⌊q⌋

/-- Parse of a decimal digit string, for `int(str)`. -/
def parseDigits (s : String) : Option Nat :=
  if s.length > 0 ∧ s.toList.all (fun c => c.isDigit) then
    some (s.toList.foldl (fun acc c => 10 * acc + (c.toNat - 48)) 0)
  else none

/-- The `try: n = int(n) / except TypeError: raise TypeError(...)` block of
`get_nearest_neighbours` (models.py lines 117-119): ints pass through,
floats are silently truncated, non-numeric strings raise the `ValueError`
of `int()` (which the `except TypeError` clause does not catch), and
`None` raises the re-raised `TypeError`. -/
def pyIntArg : PyNum → Except PyError Int
  | .int z => .ok z
  | .float q => .ok (ratTrunc q)
  | .str s =>
      match parseDigits s with
      | some m => .ok (m : Int)
      | none => .error (.valueError "invalid literal for int with base 10")
  | .none_ => .error (.typeError "number of neighbours must be an integer-type")

/-- Column `i` of the grid-point array (`self.grid_points[:, i]`). -/
def column (grid : List (List ℚ)) (i : Nat) : List ℚ :=
  grid.map (fun r => r.getD i 0)

/-- `np.unique`: the sorted distinct values. -/
def npUnique (l : List ℚ) : List ℚ :=
  (l.insertionSort (fun a b => a ≤ b)).dedup

/-- `difference = np.unique(self.grid_points[:, i] - point_value)`. -/
def dimDiffs (grid : List (List ℚ)) (i : Nat) (pv : ℚ) : List ℚ :=
  npUnique ((column grid i).map (fun c => c - pv))

/-- `difference[np.where(difference < 0)]`. -/
def dimNegs (grid : List (List ℚ)) (i : Nat) (pv : ℚ) : List ℚ :=
  (dimDiffs grid i pv).filter (fun d => d < 0)

/-- `difference[np.where(difference > 0)]`. -/
def dimPoss (grid : List (List ℚ)) (i : Nat) (pv : ℚ) : List ℚ :=
  (dimDiffs grid i pv).filter (fun d => 0 < d)

/-- The dimension loop of `get_nearest_neighbours` (models.py lines
123-131).  `negs[-n:][0]` is `(negs.drop (negs.length - n)).head?` and
`poss[:n][-1]` is `(poss.take n).getLast?`; indexing an empty slice raises
`IndexError`.  The set intersection is carried as a filtered index list. -/
def nnLoop (grid : List (List ℚ)) (n : Nat) :
    List (Nat × ℚ) → List Nat → Except PyError (List Nat)
  | [], acc => .ok acc
  | (i, pv) :: rest, acc =>
      match ((dimNegs grid i pv).drop ((dimNegs grid i pv).length - n)).head?,
            ((dimPoss grid i pv).take n).getLast? with
      | some dmin, some dmax =>
          nnLoop grid n rest (acc.filter (fun j =>
            decide (dmin + pv ≤ (column grid i).getD j 0
              ∧ (column grid i).getD j 0 ≤ dmax + pv)))
      | _, _ => .error .indexError

/-- Embedding of `Models.get_nearest_neighbours` (models.py lines
100-133).  The grid dimensionality `self.grid_points.shape[1]` is the
common row length. -/
def get_nearest_neighbours (grid : List (List ℚ)) (point : List ℚ)
    (n : PyNum) : Except PyError (List Nat) :=
  if point.length ≠ (grid.headD []).length then
    .error (.valueError "point length is incompatible with grid shape")
  else do
    let m ← pyIntArg n
    if 1 > m then
      .error (.valueError "number of neighbours must be a positive integer-type")
    else
      nnLoop grid m.toNat point.enum (List.range grid.length)

/-! ## C3/C4: `Models.interpolate_flux`, models.py lines 154-205

    neighbour_indices = self.get_nearest_neighbours(point)
    ...
    for beam in beams:
        beam_flux = ... load_model_data(self.flux_filenames[beam][index]) ...
        interpolated_flux[beam] = scipy.interpolate.griddata(
            self.grid_points[neighbour_indices], beam_flux, [point], **kwargs).flatten()

models.py imports only logging, os, re, glob, numpy (as np) and pyfits;
the name `scipy` is never imported, so the `griddata` call raises
`NameError` whenever it is reached. -/

/-- The names bound at module level in scope/models.py (its import list). -/
def modelsModuleNames : List String :=
  ["logging", "os", "re", "glob", "np", "pyfits", "Models", "load_model_data"]

/-- Module-level name resolution in scope/models.py. -/
def evalModuleName (name : String) : Except PyError Unit :=
  if name ∈ modelsModuleNames then .ok () else .error (.nameError name)

/-- The state a `Models` instance carries for `interpolate_flux`: the grid
points, and per beam the dispersion array and the flux rows that
`load_model_data` would return for the beam's matched filenames (file I/O
is an external collaborator). -/
structure ModelsData where
  grid : List (List ℚ)
  dispersion : List (String × List ℚ)
  fluxes : List (String × List (List ℚ))

/-- Embedding of `Models.interpolate_flux` (models.py lines 154-205) with
the default `beams='all'` and default `n=1` neighbour lookup.  After the
neighbour lookup succeeds the first beam iteration evaluates
`scipy.interpolate.griddata`; `scipy` is not a module-level name, so the
loop raises `NameError` there and the interpolation itself (external
scipy code) is never reached; its result is represented by the empty
continuation value. -/
def interpolate_flux (m : ModelsData) (point : List ℚ) :
    Except PyError (List (String × List ℚ)) := do
  let _idx ← get_nearest_neighbours m.grid point (.int 1)
  let beams := m.fluxes.map (fun b => b.1)
  match beams with
  | [] => pure []
  | _ :: _ => do
      let _ ← evalModuleName "scipy"
      pure []

/-! # Theorems -/

/-! ## C7 -/

/-- Claim C7: the walker validation of `Solver.infer` raises `ValueError`
exactly when the configured walker count is odd or smaller than twice the
number of free parameters, and any even walker count at least twice the
parameter count passes it.  (The claim's "if and only if" is read as
scoped to this validation, the cited lines 316-318; later, unrelated
`ValueError` checks of `infer` guard other keywords.) -/
theorem claim_C7_walkers_validation (w : Int) (p : Nat) :
    (walkersCheck w p = .error (.valueError walkersMsg)
      ↔ (w % 2 = 1 ∨ w < 2 * (p : Int)))
    ∧ (walkersCheck w p = .ok () ↔ (w % 2 = 0 ∧ 2 * (p : Int) ≤ w)) := by
  unfold walkersCheck
  split
  · rename_i h
    constructor
    · constructor
      · intro _; omega
      · intro _; rfl
    · constructor
      · intro hh; exact Except.noConfusion hh
      · intro hc; exfalso; omega
  · rename_i h
    constructor
    · constructor
      · intro hh; exact Except.noConfusion hh
      · intro hc; exfalso; omega
    · constructor
      · intro _; omega
      · intro _; rfl

/-! ## C6 -/

/-- When no observed mean acceptance fraction is exactly 0 or 1, the
sampling loop completes without raising. -/
theorem sampleLoopFrom_completes (afs : List ℚ) :
    ∀ k, (∀ a ∈ afs, a ≠ 0 ∧ a ≠ 1) → sampleLoopFrom afs k = .ok () := by
  induction afs with
  | nil => intro k _; rfl
  | cons a rest ih =>
      intro k h
      have ha := h a (List.mem_cons_self a rest)
      unfold sampleLoopFrom
      rw [if_neg]
      · exact ih (k + 1) (fun x hx => h x (List.mem_cons_of_mem a hx))
      · rintro (h0 | h1)
        · exact ha.1 h0
        · exact ha.2 h1

/-- The loop raises at offset `i` from its start when step `i` is the
first whose fraction is 0 or 1. -/
theorem sampleLoopFrom_raises (afs : List ℚ) :
    ∀ k i a, afs.get? i = some a → (a = 0 ∨ a = 1) →
      (∀ j, j < i → afs.get? j ≠ some 0 ∧ afs.get? j ≠ some 1) →
      sampleLoopFrom afs k = .error (.runtimeError (k + i)) := by
  induction afs with
  | nil => intro k i a hget _ _; simp at hget
  | cons b rest ih =>
      intro k i a hget h01 hfirst
      match i with
      | 0 =>
          have hb : b = a := by simpa using hget
          unfold sampleLoopFrom
          rw [if_pos]
          · rfl
          · rw [hb]; exact h01
      | i + 1 =>
          have hb := hfirst 0 (Nat.succ_pos i)
          have hb0 : b ≠ 0 := fun h => hb.1 (by simp [h])
          have hb1 : b ≠ 1 := fun h => hb.2 (by simp [h])
          unfold sampleLoopFrom
          rw [if_neg]
          · have := ih (k + 1) i a (by simpa using hget) h01
              (fun j hj => by
                have := hfirst (j + 1) (by omega)
                simpa using this)
            rw [this]
            congr 1
            congr 1
            omega
          · rintro (h0 | h1)
            · exact hb0 h0
            · exact hb1 h1

/-- Claim C6: during sampling, a mean acceptance fraction of exactly 0 or
exactly 1 first observed at step `i` raises `RuntimeError` at step `i`
(not at any other step), and a run whose fractions never touch 0 or 1
never raises this error. -/
theorem claim_C6_acceptance_fraction_guard :
    (∀ afs i a, afs.get? i = some a → (a = 0 ∨ a = 1) →
      (∀ j, j < i → afs.get? j ≠ some 0 ∧ afs.get? j ≠ some 1) →
      sampleLoop afs = .error (.runtimeError i))
    ∧ (∀ afs, (∀ a ∈ afs, a ≠ 0 ∧ a ≠ 1) → sampleLoop afs = .ok ()) := by
  constructor
  · intro afs i a hget h01 hfirst
    have := sampleLoopFrom_raises afs 0 i a hget h01 hfirst
    simpa [sampleLoop] using this
  · intro afs h
    exact sampleLoopFrom_completes afs 0 h

/-- Witness for C6 at the spec's concrete scenario: fractions touching 0
for the first time at step 5 (0-based) raise there. -/
theorem claim_C6_witness :
    sampleLoop [1/2, 1/2, 1/2, 1/2, 1/2, 0] = .error (.runtimeError 5) :=
  claim_C6_acceptance_fraction_guard.1 [1/2, 1/2, 1/2, 1/2, 1/2, 0] 5 0
    (by with_unfolding_all decide) (Or.inl rfl)
    (by with_unfolding_all decide)

/-! ## C9 -/

/-- Claim C9: for a channel whose redshift and resolution are both fixed
(option 1 of `_create_convolution_functions`, under either value of
`fast_binning`), the precomputed transform returns the same output for any
two calls that differ only in the resolution argument. -/
theorem claim_C9_fixed_transform_ignores_resolution (ctx : BinnerCtx)
    (fb : Bool) (fz : ℚ) (disp w f : List ℚ) (z R R' : ℚ) :
    createConvolutionFunction ctx fb false false fz disp w f z R
      = createConvolutionFunction ctx fb false false fz disp w f z R' := by
  cases fb <;> rfl

/-! ## C10 -/

/-- Specification of `firstMatchIdx`: a returned index points at the first
matching row. -/
theorem firstMatchIdx_spec (point : List ℚ) :
    ∀ (grid : List (List ℚ)) (k i : Nat),
      firstMatchIdx point grid k = some i →
      k ≤ i ∧
      ∃ r, grid.get? (i - k) = some r ∧ rowMatch r point = true ∧
        ∀ j r', j < i - k → grid.get? j = some r' → rowMatch r' point = false := by
  intro grid
  induction grid with
  | nil => intro k i h; simp [firstMatchIdx] at h
  | cons r rest ih =>
      intro k i h
      unfold firstMatchIdx at h
      split at h
      · rename_i hm
        have hk : k = i := by simpa using h
        subst hk
        refine ⟨Nat.le_refl k, r, ?_, hm, ?_⟩
        · simp
        · intro j r' hj _
          omega
      · rename_i hm
        have ⟨hki, rr, hget, hmm, hfirst⟩ := ih (k + 1) i h
        refine ⟨by omega, rr, ?_, hmm, ?_⟩
        · have : i - k = (i - (k + 1)) + 1 := by omega
          rw [this]
          simpa using hget
        · intro j r' hj hget'
          match j with
          | 0 =>
              have : r' = r := by
                have := hget'
                simp only [List.get?] at this
                exact (Option.some.inj this).symm
              rw [this]
              simpa using hm
          | j + 1 =>
              exact hfirst j r' (by omega) (by simpa using hget')

/-- `firstMatchIdx` finds nothing when no row matches. -/
theorem firstMatchIdx_none (point : List ℚ) :
    ∀ (grid : List (List ℚ)) (k : Nat),
      (∀ r ∈ grid, rowMatch r point = false) →
      firstMatchIdx point grid k = none := by
  intro grid
  induction grid with
  | nil => intro k _; rfl
  | cons r rest ih =>
      intro k h
      unfold firstMatchIdx
      rw [if_neg]
      · exact ih (k + 1) (fun x hx => h x (List.mem_cons_of_mem r hx))
      · simp [h r (List.mem_cons_self r rest)]

/-- Claim C10: `check_grid_point` returns the index of the first grid row
equal to the query point, returns the Python boolean `False` when no row
matches, and — since `False == 0` in Python — a caller comparing the
result with an integer cannot distinguish "not found" from "found at
index 0": both concrete calls below compare equal to 0. -/
theorem claim_C10_check_grid_point :
    (∀ grid point i, check_grid_point grid point = .int i →
      ∃ r, grid.get? i = some r ∧ rowMatch r point = true ∧
        ∀ j r', j < i → grid.get? j = some r' → rowMatch r' point = false)
    ∧ (∀ grid point, (∀ r ∈ grid, rowMatch r point = false) →
        check_grid_point grid point = .bool false)
    ∧ pyEqInt (check_grid_point [[5]] [5]) 0 = true
    ∧ pyEqInt (check_grid_point [[5]] [6]) 0 = true := by
  refine ⟨?_, ?_, by with_unfolding_all decide, by with_unfolding_all decide⟩
  · intro grid point i h
    unfold check_grid_point at h
    cases hf : firstMatchIdx point grid 0 with
    | none => rw [hf] at h; exact PyRet.noConfusion h
    | some m =>
        rw [hf] at h
        have hm : m = i := by simpa using h
        subst hm
        have ⟨_, r, hget, hmm, hfirst⟩ := firstMatchIdx_spec point grid 0 m hf
        simp only [Nat.sub_zero] at hget hfirst
        exact ⟨r, hget, hmm, hfirst⟩
  · intro grid point h
    unfold check_grid_point
    rw [firstMatchIdx_none point grid 0 h]

/-- Witness for C10, applying the not-found branch at a concrete grid. -/
theorem claim_C10_witness :
    check_grid_point [[1]] [2] = .bool false :=
  claim_C10_check_grid_point.2.1 [[1]] [2] (by with_unfolding_all decide)

/-! ## C5 -/

/-- A successful lookup means the dict is non-empty. -/
theorem lookup_some_nonempty {theta : List (String × ℚ)} {k : String} {v : ℚ}
    (h : theta.lookup k = some v) : theta ≠ [] := by
  intro hnil
  rw [hnil] at h
  simp [List.lookup] at h

/-- The coefficient loop stops at the first missing key: with index 0
present and index 1 absent it gathers exactly the one coefficient. -/
theorem gatherCoeff_single (theta : List (String × ℚ)) (channel : String)
    (c : ℚ) (h0 : theta.lookup (contKey channel 0) = some c)
    (h1 : theta.lookup (contKey channel 1) = none) :
    gatherCoeff theta channel = [c] := by
  have hne := lookup_some_nonempty h0
  match theta, hne with
  | hd :: tl, _ =>
      show gatherCoeffAux (hd :: tl) channel ((hd :: tl).length + 1) 0 = [c]
      have hlen : (hd :: tl).length + 1 = tl.length + 1 + 1 := by simp
      rw [hlen]
      unfold gatherCoeffAux
      rw [h0]
      unfold gatherCoeffAux
      rw [h1]

/-- With no index-0 key the coefficient loop gathers nothing. -/
theorem gatherCoeff_none (theta : List (String × ℚ)) (channel : String)
    (h0 : theta.lookup (contKey channel 0) = none) :
    gatherCoeff theta channel = [] := by
  show gatherCoeffAux theta channel (theta.length + 1) 0 = []
  unfold gatherCoeffAux
  rw [h0]

/-- Pixelwise continuum multiplication with the constant polynomial 2 over
unit fluxes gives 2 everywhere. -/
theorem zipMulConstTwo (d : List ℚ) :
    ∀ fl : List ℚ, d.length = fl.length → (∀ x ∈ fl, x = 1) →
      (d.zip fl).map (fun wf => wf.2 * |npPolyval [2] wf.1|)
        = List.replicate fl.length 2 := by
  induction d with
  | nil =>
      intro fl h _
      match fl, h.symm with
      | [], _ => rfl
  | cons a d ih =>
      intro fl h hf
      match fl with
      | [] => simp at h
      | b :: fl =>
          have hb : b = 1 := hf b (List.mem_cons_self b fl)
          have hp : npPolyval [2] a = 2 := by
            simp [npPolyval]
          have habs : |(2 : ℚ)| = 2 := by norm_num
          have hrest := ih fl (by simpa using h)
            (fun x hx => hf x (List.mem_cons_of_mem b hx))
          simp only [List.zip_cons_cons, List.map_cons, hp, habs, hb,
            List.length_cons, List.replicate_succ, hrest, one_mul]

/-- Claim C5: with `continuum_{channel}_0 = 2.0` present and no
higher-index coefficient (the loop probes index 1 right after index 0, so
its absence is what stops the gather), and the binned model flux equal to
1.0 at every pixel, the continuum step returns 2.0 at every pixel of the
channel; and when the index-0 coefficient is absent no continuum
multiplication is applied — the flux comes back unchanged. -/
theorem claim_C5_continuum_application :
    (∀ (theta : List (String × ℚ)) (channel : String) (disp fluxes : List ℚ),
      disp.length = fluxes.length →
      theta.lookup (contKey channel 0) = some 2 →
      theta.lookup (contKey channel 1) = none →
      (∀ x ∈ fluxes, x = 1) →
      applyContinuum theta channel disp fluxes
        = List.replicate fluxes.length 2)
    ∧ (∀ (theta : List (String × ℚ)) (channel : String) (disp fluxes : List ℚ),
      theta.lookup (contKey channel 0) = none →
      applyContinuum theta channel disp fluxes = fluxes) := by
  constructor
  · intro theta channel disp fluxes hlen h0 h1 hf
    unfold applyContinuum
    rw [gatherCoeff_single theta channel 2 h0 h1]
    simp only [List.isEmpty_cons, Bool.false_eq_true, if_false, List.reverse_cons,
      List.reverse_nil, List.nil_append]
    exact zipMulConstTwo disp fluxes hlen hf
  · intro theta channel disp fluxes h0
    unfold applyContinuum
    rw [gatherCoeff_none theta channel h0]
    rfl

/-- Witness for C5: a concrete channel with the constant continuum 2 over
unit fluxes, and a theta with no continuum key for the channel. -/
theorem claim_C5_witness :
    applyContinuum [("continuum_blue_0", 2)] "blue" [4000, 4001] [1, 1]
      = [2, 2]
    ∧ applyContinuum [("ln_f", 1/2)] "blue" [4000, 4001] [1, 1] = [1, 1] := by
  constructor
  · have := claim_C5_continuum_application.1 [("continuum_blue_0", 2)] "blue"
      [4000, 4001] [1, 1] (by decide) (by with_unfolding_all decide)
      (by with_unfolding_all decide) (by with_unfolding_all decide)
    simpa using this
  · exact claim_C5_continuum_application.2 [("ln_f", 1/2)] "blue"
      [4000, 4001] [1, 1] (by with_unfolding_all decide)

/-! ## C1 -/

/-- Bind reduction for ok results of the embedded Python computations. -/
theorem exc_bind_ok {ε α β : Type} (v : α) (f : α → Except ε β) :
    (Except.ok v >>= f) = f v := rfl

/-- Bind reduction for raised exceptions. -/
theorem exc_bind_err {ε α β : Type} (e : ε) (f : α → Except ε β) :
    ((Except.error e : Except ε α) >>= f) = Except.error e := rfl

/-- The default keyword dictionary holds the documented entry. -/
theorem kwd_minEis : kwdGet kwdDefault "minimum_effective_independent_samples"
    = .ok 100 := by decide

theorem kwd_maxSample : kwdGet kwdDefault "maximum_sample" = .ok 100000 := by
  decide

theorem kwd_nTau : kwdGet kwdDefault "n_tau_exp_as_burn_in" = .ok 3 := by
  decide

theorem kwd_freq : kwdGet kwdDefault "check_convergence_frequency"
    = .ok 1000 := by decide

theorem kwd_walkers : kwdGet kwdDefault "walkers" = .ok 100 := by decide

theorem kwd_n_missing : kwdGet kwdDefault "n" = .error (.keyError "n") := by
  decide

theorem burn_chains_unbound : localLookup boundLocalsAtLoopExit "burn_chains"
    = .error (.nameError "burn_chains") := by decide

/-- Branch analysis of the auto-convergence body, unconverged check:
enough post-burn steps remain but the minimum effective sample count does
not exceed the configured minimum, so `kwd["n"]` is evaluated and raises
`KeyError`. -/
theorem inferAuto_keyError (tE : ℚ → Option ℚ) (tI : ℚ → ℚ → List ℚ)
    (sb : Except PyError Unit) (s c : ℚ)
    (hg : (100000 : ℚ) > s)
    (hs : ¬ (c - (⌈tauExpOf tE c s⌉ : ℚ) * 3 < 1))
    (hm : ¬ ((List.map (fun t => 100 * (c - (⌈tauExpOf tE c s⌉ : ℚ) * 3) / (2 * t))
        (tI ((⌈tauExpOf tE c s⌉ : ℚ) * 3) c)).min?.getD 0 > 100)) :
    inferAutoStep kwdDefault tE tI sb s c = .error (.keyError "n") := by
  unfold inferAutoStep
  simp only [kwd_minEis, kwd_maxSample, kwd_nTau, kwd_walkers,
    kwd_n_missing, exc_bind_ok, exc_bind_err]
  rw [if_pos hg, if_neg hs, if_neg hm]

/-- Branch analysis, converged check: the minimum effective sample count
exceeds the configured minimum, and the convergence log line's
`str.format` (two fields, one argument) raises `IndexError`. -/
theorem inferAuto_indexError (tE : ℚ → Option ℚ) (tI : ℚ → ℚ → List ℚ)
    (sb : Except PyError Unit) (s c : ℚ)
    (hg : (100000 : ℚ) > s)
    (hs : ¬ (c - (⌈tauExpOf tE c s⌉ : ℚ) * 3 < 1))
    (hm : (List.map (fun t => 100 * (c - (⌈tauExpOf tE c s⌉ : ℚ) * 3) / (2 * t))
        (tI ((⌈tauExpOf tE c s⌉ : ℚ) * 3) c)).min?.getD 0 > 100) :
    inferAutoStep kwdDefault tE tI sb s c = .error .indexError := by
  unfold inferAutoStep
  simp only [kwd_minEis, kwd_maxSample, kwd_nTau, kwd_walkers,
    exc_bind_ok, exc_bind_err]
  rw [if_pos hg, if_neg hs, if_pos hm]
  rfl

/-- Branch analysis, exhausted path: the while guard fails, the
unconverged warning is logged, and the read of the never-assigned local
`burn_chains` raises. -/
theorem inferAuto_nameError (tE : ℚ → Option ℚ) (tI : ℚ → ℚ → List ℚ)
    (sb : Except PyError Unit) (s c : ℚ)
    (hg : ¬ ((100000 : ℚ) > s)) :
    inferAutoStep kwdDefault tE tI sb s c
      = .error (.nameError "burn_chains") := by
  unfold inferAutoStep
  simp only [kwd_minEis, kwd_maxSample, burn_chains_unbound,
    exc_bind_ok, exc_bind_err]
  rw [if_neg hg]

/-- Claim C1 (code bug): every branch of the auto-convergence loop body of
`Model.infer` raises before the loop can repeat.  With the source's
default keywords: a convergence check that finds too few effective
independent samples raises `KeyError` on the undefined `kwd["n"]` (line
498) instead of sampling another batch; a check that should declare
convergence raises `IndexError` in the two-field one-argument
`str.format` call of its log line (line 483); and the exhausted path
(maximum sample count reached) raises on the never-assigned local
`burn_chains` (line 526) instead of returning a best-effort posterior.
The final conjunct: for any estimator behaviour and any state, the body
raises some exception, so the loop can never behave as the claim
describes. -/
theorem claim_C1_auto_convergence_crashes :
    (inferAutoStep kwdDefault (fun _ => some 1) (fun _ _ => [100000])
        (.ok ()) 2000 2000 = .error (.keyError "n"))
    ∧ (inferAutoStep kwdDefault (fun _ => some 1) (fun _ _ => [1])
        (.ok ()) 2000 2000 = .error .indexError)
    ∧ (inferAutoStep kwdDefault (fun _ => some 1) (fun _ _ => [1])
        (.ok ()) 100000 100000 = .error (.nameError "burn_chains"))
    ∧ (∀ tE tI sb s c, ∃ e,
        inferAutoStep kwdDefault tE tI sb s c = Except.error e) := by
  have htau : tauExpOf (fun _ => some 1) 2000 2000 = 1 := rfl
  refine ⟨?_, ?_, ?_, ?_⟩
  · refine inferAuto_keyError _ _ _ _ _ (by norm_num) ?_ ?_
    · rw [htau]
      norm_num [Int.ceil_one]
    · rw [htau]
      norm_num [Int.ceil_one, List.min?]
  · refine inferAuto_indexError _ _ _ _ _ (by norm_num) ?_ ?_
    · rw [htau]
      norm_num [Int.ceil_one]
    · rw [htau]
      norm_num [Int.ceil_one, List.min?]
  · exact inferAuto_nameError _ _ _ _ _ (by norm_num)
  · intro tE tI sb s c
    by_cases hg : (100000 : ℚ) > s
    · by_cases hs : c - (⌈tauExpOf tE c s⌉ : ℚ) * 3 < 1
      · refine ⟨match sb with
          | .error e => e
          | .ok _ => .typeError "extend takes exactly one argument, 3 given",
          ?_⟩
        unfold inferAutoStep
        simp only [kwd_minEis, kwd_maxSample, kwd_nTau, kwd_freq,
          exc_bind_ok, exc_bind_err]
        rw [if_pos hg, if_pos hs]
        cases sb with
        | error e => rfl
        | ok u => cases u; rfl
      · by_cases hm : (List.map
            (fun t => 100 * (c - (⌈tauExpOf tE c s⌉ : ℚ) * 3) / (2 * t))
            (tI ((⌈tauExpOf tE c s⌉ : ℚ) * 3) c)).min?.getD 0 > 100
        · exact ⟨.indexError, inferAuto_indexError tE tI sb s c hg hs hm⟩
        · exact ⟨.keyError "n", inferAuto_keyError tE tI sb s c hg hs hm⟩
    · exact ⟨.nameError "burn_chains", inferAuto_nameError tE tI sb s c hg⟩

/-! ## C2 -/

/-- The full rectangular (Cartesian-product) grid over per-dimension axis
value lists; the spec's data model requires model grids to be rectangular
(non-rectangular topologies are a declared non-goal). -/
def cartProd : List (List ℚ) → List (List ℚ)
  | [] => [[]]
  | ax :: rest => ax.flatMap (fun v => (cartProd rest).map (fun p => v :: p))

/-- Membership in the rectangular grid is exactly: right dimensionality
and every coordinate on its axis. -/
theorem mem_cartProd : ∀ (axes : List (List ℚ)) (p : List ℚ),
    p ∈ cartProd axes ↔
      (p.length = axes.length
        ∧ ∀ i, i < axes.length → p.getD i 0 ∈ axes.getD i []) := by
  intro axes
  induction axes with
  | nil =>
      intro p
      constructor
      · intro hp
        have : p = [] := by simpa [cartProd] using hp
        subst this
        exact ⟨rfl, fun i hi => absurd hi (Nat.not_lt_zero i)⟩
      · rintro ⟨hlen, _⟩
        have : p = [] := List.length_eq_zero.mp hlen
        subst this
        simp [cartProd]
  | cons ax rest ih =>
      intro p
      constructor
      · intro hp
        rcases List.mem_flatMap.mp hp with ⟨v, hv, hpm⟩
        rcases List.mem_map.mp hpm with ⟨q, hq, rfl⟩
        rcases (ih q).mp hq with ⟨hlen, hcoord⟩
        refine ⟨by simpa using hlen, ?_⟩
        intro i hi
        match i with
        | 0 => simpa using hv
        | i + 1 =>
            have hi' : i < rest.length := by simpa using hi
            simpa using hcoord i hi'
      · rintro ⟨hlen, hcoord⟩
        match p with
        | [] => simp at hlen
        | v :: q =>
            have hq : q ∈ cartProd rest := by
              refine (ih q).mpr ⟨by simpa using hlen, ?_⟩
              intro i hi
              have := hcoord (i + 1) (by simpa using hi)
              simpa using this
            have hv : v ∈ ax := by simpa using hcoord 0 (by simp)
            exact List.mem_flatMap.mpr
              ⟨v, hv, List.mem_map.mpr ⟨q, hq, rfl⟩⟩

/-- `np.unique` preserves membership. -/
theorem mem_npUnique {x : ℚ} {l : List ℚ} : x ∈ npUnique l ↔ x ∈ l := by
  unfold npUnique
  rw [List.mem_dedup]
  exact (List.perm_insertionSort (fun a b => a ≤ b) l).mem_iff

/-- The slice `l[-n:][0]` of a non-empty list (`n ≥ 1`) exists and is an
element of the list. -/
theorem head_drop_mem (l : List ℚ) (n : Nat) (hn : 1 ≤ n) (h : l ≠ []) :
    ∃ d, (l.drop (l.length - n)).head? = some d ∧ d ∈ l := by
  cases hd : l.drop (l.length - n) with
  | nil =>
      exfalso
      have hlen : l.length - (l.length - n) = 0 := by
        have := congrArg List.length hd
        simpa [List.length_drop] using this
      have hl : 1 ≤ l.length := List.length_pos.mpr h
      omega
  | cons a t =>
      refine ⟨a, rfl, ?_⟩
      exact List.drop_subset (l.length - n) l (hd ▸ List.mem_cons_self a t)

/-- The slice `l[:n][-1]` of a non-empty list (`n ≥ 1`) exists and is an
element of the list. -/
theorem getLast_take_mem (l : List ℚ) (n : Nat) (hn : 1 ≤ n) (h : l ≠ []) :
    ∃ d, (l.take n).getLast? = some d ∧ d ∈ l := by
  cases ht : l.take n with
  | nil =>
      exfalso
      have hlen : min n l.length = 0 := by
        have := congrArg List.length ht
        simpa [List.length_take] using this
      have hl : 1 ≤ l.length := List.length_pos.mpr h
      omega
  | cons a t =>
      have hne : (a :: t) ≠ [] := by simp
      refine ⟨(a :: t).getLast hne,
        List.getLast?_eq_getLast_of_ne_nil hne, ?_⟩
      refine List.take_subset n l ?_
      rw [ht]
      exact List.getLast_mem hne

/-- The lower window offset of one dimension pass:
`difference[np.where(difference < 0)][-n:][0]` (before adding back the
query coordinate). -/
def limLo (grid : List (List ℚ)) (nz i : Nat) (pv : ℚ) : ℚ :=
  (((dimNegs grid i pv).drop ((dimNegs grid i pv).length - nz)).head?).getD 0

/-- The upper window offset: `difference[np.where(difference > 0)][:n][-1]`. -/
def limHi (grid : List (List ℚ)) (nz i : Nat) (pv : ℚ) : ℚ :=
  (((dimPoss grid i pv).take nz).getLast?).getD 0

/-- Index `j` survives the dimension-`i` filter of the loop. -/
def inWindow (grid : List (List ℚ)) (nz i : Nat) (pv : ℚ) (j : Nat) : Prop :=
  limLo grid nz i pv + pv ≤ (column grid i).getD j 0
  ∧ (column grid i).getD j 0 ≤ limHi grid nz i pv + pv

/-- The loop raises `IndexError` whenever some dimension has no grid value
strictly below (empty negative slice) or strictly above (empty positive
slice) the query coordinate. -/
theorem nnLoop_error (grid : List (List ℚ)) (nz : Nat) :
    ∀ (dims : List (Nat × ℚ)) (acc : List Nat),
      (∃ d ∈ dims, dimNegs grid d.1 d.2 = [] ∨ dimPoss grid d.1 d.2 = []) →
      nnLoop grid nz dims acc = .error .indexError := by
  intro dims
  induction dims with
  | nil =>
      rintro acc ⟨d, hd, _⟩
      simp at hd
  | cons d rest ih =>
      obtain ⟨i, pv⟩ := d
      rintro acc ⟨d', hd', hfail⟩
      unfold nnLoop
      split
      · rename_i dmin dmax h1 h2
        rcases List.mem_cons.mp hd' with heq | hmem
        · exfalso
          subst heq
          rcases hfail with hneg | hpos
          · rw [hneg] at h1
            simp at h1
          · rw [hpos] at h2
            simp at h2
        · exact ih _ ⟨d', hmem, hfail⟩
      · rfl

/-- When every dimension has non-empty negative and positive slices, the
loop succeeds, and any accumulator index inside every dimension's window
survives to the result. -/
theorem nnLoop_ok (grid : List (List ℚ)) (nz : Nat) (hn : 1 ≤ nz) :
    ∀ (dims : List (Nat × ℚ)) (acc : List Nat),
      (∀ d ∈ dims, dimNegs grid d.1 d.2 ≠ [] ∧ dimPoss grid d.1 d.2 ≠ []) →
      ∃ res, nnLoop grid nz dims acc = .ok res ∧
        ∀ j ∈ acc, (∀ d ∈ dims, inWindow grid nz d.1 d.2 j) → j ∈ res := by
  intro dims
  induction dims with
  | nil =>
      intro acc _
      exact ⟨acc, rfl, fun j hj _ => hj⟩
  | cons d rest ih =>
      obtain ⟨i, pv⟩ := d
      intro acc hne
      have hhead : dimNegs grid i pv ≠ [] ∧ dimPoss grid i pv ≠ [] :=
        hne (i, pv) (List.mem_cons_self _ _)
      obtain ⟨dmin, h1, hmin_mem⟩ := head_drop_mem _ nz hn hhead.1
      obtain ⟨dmax, h2, hmax_mem⟩ := getLast_take_mem _ nz hn hhead.2
      obtain ⟨res, heq, hsub⟩ := ih
        (acc.filter (fun j =>
          decide (dmin + pv ≤ (column grid i).getD j 0
            ∧ (column grid i).getD j 0 ≤ dmax + pv)))
        (fun d hd => hne d (List.mem_cons_of_mem _ hd))
      refine ⟨res, ?_, ?_⟩
      · unfold nnLoop
        rw [h1, h2]
        exact heq
      · intro j hj hwin
        refine hsub j ?_ (fun d hd => hwin d (List.mem_cons_of_mem _ hd))
        rw [List.mem_filter]
        refine ⟨hj, ?_⟩
        have hw : inWindow grid nz i pv j :=
          hwin (i, pv) (List.mem_cons_self _ _)
        unfold inWindow limLo limHi at hw
        rw [h1, h2] at hw
        simp only [Option.getD_some] at hw
        exact decide_eq_true hw

/-- A grid value strictly below the query coordinate puts its difference
in the negative slice. -/
theorem dimNegs_ne_of_below {grid : List (List ℚ)} {i : Nat} {pv a : ℚ}
    (ha : a ∈ column grid i) (hlt : a < pv) : dimNegs grid i pv ≠ [] := by
  intro hnil
  have hmem : a - pv ∈ dimNegs grid i pv := by
    unfold dimNegs
    rw [List.mem_filter]
    refine ⟨?_, ?_⟩
    · unfold dimDiffs
      exact mem_npUnique.mpr (List.mem_map.mpr ⟨a, ha, rfl⟩)
    · exact decide_eq_true (by linarith)
  rw [hnil] at hmem
  cases hmem

/-- A grid value strictly above the query coordinate puts its difference
in the positive slice. -/
theorem dimPoss_ne_of_above {grid : List (List ℚ)} {i : Nat} {pv b : ℚ}
    (hb : b ∈ column grid i) (hlt : pv < b) : dimPoss grid i pv ≠ [] := by
  intro hnil
  have hmem : b - pv ∈ dimPoss grid i pv := by
    unfold dimPoss
    rw [List.mem_filter]
    refine ⟨?_, ?_⟩
    · unfold dimDiffs
      exact mem_npUnique.mpr (List.mem_map.mpr ⟨b, hb, rfl⟩)
    · exact decide_eq_true (by linarith)
  rw [hnil] at hmem
  cases hmem

/-- When every grid value in dimension `i` is strictly below the query
coordinate, the positive slice is empty. -/
theorem dimPoss_nil_of_all_below {grid : List (List ℚ)} {i : Nat} {pv : ℚ}
    (h : ∀ a ∈ column grid i, a < pv) : dimPoss grid i pv = [] := by
  unfold dimPoss
  rw [List.filter_eq_nil_iff]
  intro d hd
  rcases List.mem_map.mp (mem_npUnique.mp hd) with ⟨c, hc, rfl⟩
  have := h c hc
  simp only [decide_eq_true_eq]
  intro h0
  linarith

/-- When every grid value in dimension `i` is strictly above the query
coordinate, the negative slice is empty. -/
theorem dimNegs_nil_of_all_above {grid : List (List ℚ)} {i : Nat} {pv : ℚ}
    (h : ∀ a ∈ column grid i, pv < a) : dimNegs grid i pv = [] := by
  unfold dimNegs
  rw [List.filter_eq_nil_iff]
  intro d hd
  rcases List.mem_map.mp (mem_npUnique.mp hd) with ⟨c, hc, rfl⟩
  have := h c hc
  simp only [decide_eq_true_eq]
  intro h0
  linarith

/-- The lower window offset is a negative difference whose grid value
(`limLo + pv`) lies in the column. -/
theorem limLo_spec (grid : List (List ℚ)) (nz i : Nat) (pv : ℚ)
    (hn : 1 ≤ nz) (h : dimNegs grid i pv ≠ []) :
    limLo grid nz i pv < 0 ∧ limLo grid nz i pv + pv ∈ column grid i := by
  obtain ⟨dmin, h1, hmem⟩ := head_drop_mem _ nz hn h
  have hval : limLo grid nz i pv = dmin := by
    unfold limLo
    rw [h1]
    rfl
  unfold dimNegs at hmem
  rw [List.mem_filter] at hmem
  obtain ⟨hdiff, hneg⟩ := hmem
  rcases List.mem_map.mp (mem_npUnique.mp hdiff) with ⟨c, hc, hcd⟩
  constructor
  · rw [hval]
    exact of_decide_eq_true hneg
  · rw [hval, ← hcd]
    simpa using hc

/-- The upper window offset is a positive difference. -/
theorem limHi_spec (grid : List (List ℚ)) (nz i : Nat) (pv : ℚ)
    (hn : 1 ≤ nz) (h : dimPoss grid i pv ≠ []) :
    0 < limHi grid nz i pv := by
  obtain ⟨dmax, h2, hmem⟩ := getLast_take_mem _ nz hn h
  have hval : limHi grid nz i pv = dmax := by
    unfold limHi
    rw [h2]
    rfl
  unfold dimPoss at hmem
  rw [List.mem_filter] at hmem
  rw [hval]
  exact of_decide_eq_true hmem.2

/-- Reading the column at an index whose grid row is known. -/
theorem column_getD_of_getElem {grid : List (List ℚ)} {j : Nat}
    {q : List ℚ} (h : grid[j]? = some q) (i : Nat) :
    (column grid i).getD j 0 = q.getD i 0 := by
  unfold column
  rw [List.getD_eq_getElem?_getD, List.getElem?_map, h]
  rfl

/-- Reading a `range`-map at an in-range index. -/
theorem range_map_getD (D : Nat) (f : Nat → ℚ) {i : Nat} (hi : i < D) :
    ((List.range D).map f).getD i 0 = f i := by
  rw [List.getD_eq_getElem?_getD, List.getElem?_map, List.getElem?_range hi]
  rfl

/-- Claim C2, counterexample: for the 1-D grid with points 0 and 1 and
the query point 5 — outside the grid's convex extent — the claim says
`nearest_neighbours` returns the empty set without raising; the code
instead raises `IndexError` when it indexes the empty positive-difference
slice (`difference[np.where(difference > 0)][:n][-1]`). -/
theorem claim_C2_counterexample :
    get_nearest_neighbours [[0], [1]] [5] (.int 1) = .error .indexError := by
  with_unfolding_all decide

/-- Claim C2 as amended: with `n = 1`, on a non-empty full rectangular
grid (the spec's data-model invariant, here explicit as a permutation of
a Cartesian product of axes), a query point strictly inside every
dimension's grid values yields a successful, non-empty index set; a query
point strictly outside the grid's extent in some dimension makes the call
raise `IndexError` — it does not return an empty set. -/
theorem claim_C2_amended :
    (∀ (axes grid : List (List ℚ)) (point : List ℚ),
      grid.Perm (cartProd axes) → grid ≠ [] →
      point.length = axes.length →
      (∀ i, i < point.length →
        (∃ a ∈ column grid i, a < point.getD i 0)
        ∧ (∃ b ∈ column grid i, point.getD i 0 < b)) →
      ∃ res, get_nearest_neighbours grid point (.int 1) = .ok res ∧ res ≠ [])
    ∧ (∀ (grid : List (List ℚ)) (point : List ℚ),
      point.length = (grid.headD []).length →
      (∃ i, i < point.length ∧
        ((∀ a ∈ column grid i, a < point.getD i 0)
         ∨ (∀ a ∈ column grid i, point.getD i 0 < a))) →
      get_nearest_neighbours grid point (.int 1) = .error .indexError) := by
  constructor
  · intro axes grid point hperm hgne hlen hwithin
    have hhead_mem : grid.headD [] ∈ grid := by
      cases grid with
      | nil => exact absurd rfl hgne
      | cons a b => exact List.mem_cons_self a b
    have hD : (grid.headD []).length = axes.length :=
      ((mem_cartProd axes _).mp (hperm.subset hhead_mem)).1
    unfold get_nearest_neighbours
    rw [if_neg (fun hx => hx (hlen.trans hD.symm))]
    simp only [pyIntArg, exc_bind_ok]
    rw [if_neg (by decide)]
    show ∃ res, nnLoop grid 1 point.enum (List.range grid.length)
      = Except.ok res ∧ res ≠ []
    have henum : ∀ d ∈ point.enum,
        d.2 = point.getD d.1 0 ∧ d.1 < point.length := by
      intro d hd
      rw [List.mem_enum_iff_getElem?] at hd
      rcases List.getElem?_eq_some.mp hd with ⟨h, hv⟩
      exact ⟨by rw [← hv, List.getD_eq_getElem point 0 h], h⟩
    have hdims : ∀ d ∈ point.enum,
        dimNegs grid d.1 d.2 ≠ [] ∧ dimPoss grid d.1 d.2 ≠ [] := by
      intro d hd
      obtain ⟨hdv, hdi⟩ := henum d hd
      obtain ⟨⟨a, ha, hak⟩, ⟨b, hb, hbk⟩⟩ := hwithin d.1 hdi
      constructor
      · exact dimNegs_ne_of_below ha (by rw [hdv]; exact hak)
      · exact dimPoss_ne_of_above hb (by rw [hdv]; exact hbk)
    obtain ⟨res, heq, hsub⟩ :=
      nnLoop_ok grid 1 (by decide) point.enum (List.range grid.length) hdims
    refine ⟨res, heq, ?_⟩
    have hneg_ne : ∀ i, i < axes.length →
        dimNegs grid i (point.getD i 0) ≠ [] := by
      intro i hi
      obtain ⟨⟨a, ha, hak⟩, _⟩ := hwithin i (by omega)
      exact dimNegs_ne_of_below ha hak
    -- the witness row: each coordinate is the nearest grid value below
    have hqmem : (List.range axes.length).map
        (fun i => limLo grid 1 i (point.getD i 0) + point.getD i 0) ∈ grid := by
      rw [hperm.mem_iff, mem_cartProd]
      constructor
      · simp
      · intro i hi
        rw [range_map_getD axes.length _ hi]
        have hcol := (limLo_spec grid 1 i (point.getD i 0) (by decide)
          (hneg_ne i hi)).2
        rcases List.mem_map.mp hcol with ⟨r, hr, hrv⟩
        rw [← hrv]
        exact ((mem_cartProd axes r).mp (hperm.subset hr)).2 i hi
    obtain ⟨j, hj⟩ := List.getElem?_of_mem hqmem
    have hjlen : j < grid.length := (List.getElem?_eq_some.mp hj).1
    have hwinall : ∀ d ∈ point.enum, inWindow grid 1 d.1 d.2 j := by
      intro d hd
      obtain ⟨hdv, hdi⟩ := henum d hd
      have hdiD : d.1 < axes.length := by omega
      have hvcol : (column grid d.1).getD j 0
          = limLo grid 1 d.1 (point.getD d.1 0) + point.getD d.1 0 := by
        rw [column_getD_of_getElem hj d.1, range_map_getD axes.length _ hdiD]
      have hlo := limLo_spec grid 1 d.1 (point.getD d.1 0) (by decide)
        (hneg_ne d.1 hdiD)
      have hpos_ne : dimPoss grid d.1 d.2 ≠ [] := (hdims d hd).2
      have hhi := limHi_spec grid 1 d.1 d.2 (by decide) hpos_ne
      constructor
      · rw [hvcol, hdv]
      · rw [hvcol, hdv]
        rw [hdv] at hhi
        have h1 := hlo.1
        have h2 := hhi
        linarith
    have hjres : j ∈ res := hsub j (List.mem_range.mpr hjlen) hwinall
    exact List.ne_nil_of_mem hjres
  · intro grid point hlen hout
    obtain ⟨i, hi, hcase⟩ := hout
    unfold get_nearest_neighbours
    rw [if_neg (fun hx => hx hlen)]
    simp only [pyIntArg, exc_bind_ok]
    rw [if_neg (by decide)]
    apply nnLoop_error
    refine ⟨(i, point.getD i 0), ?_, ?_⟩
    · rw [List.mem_enum_iff_getElem?]
      show point[i]? = some (point.getD i 0)
      rw [List.getElem?_eq_getElem hi, List.getD_eq_getElem point 0 hi]
    · rcases hcase with hbelow | habove
      · exact Or.inr (dimPoss_nil_of_all_below hbelow)
      · exact Or.inl (dimNegs_nil_of_all_above habove)

/-- Witness for C2: a concrete 1-D rectangular grid with an interior query
(non-empty result) and a concrete out-of-extent query (IndexError). -/
theorem claim_C2_witness :
    (∃ res, get_nearest_neighbours [[0], [1]] [1/2] (.int 1)
      = .ok res ∧ res ≠ [])
    ∧ get_nearest_neighbours [[0], [1], [2]] [7] (.int 1)
      = .error .indexError := by
  constructor
  · exact claim_C2_amended.1 [[0, 1]] [[0], [1]] [1/2]
      (by with_unfolding_all decide) (by decide) (by decide)
      (by with_unfolding_all decide)
  · exact claim_C2_amended.2 [[0], [1], [2]] [7] (by decide)
      ⟨0, by decide, Or.inl (by with_unfolding_all decide)⟩

/-! ## C8 -/

/-- Claim C8, counterexample: the claim says `nearest_neighbours` fails
with `ValueError` for every non-integer `n`; but `n = 2.5` (a non-integer
float) is silently truncated by `int(n)` to 2 and the call succeeds. -/
theorem claim_C8_counterexample :
    get_nearest_neighbours [[0], [1], [2], [3], [4], [5]] [5/2]
      (.float (5/2)) = .ok [1, 2, 3, 4] := by
  with_unfolding_all decide

/-- Claim C8 as amended: a query point whose length differs from the grid
dimensionality raises `ValueError` (the code defines no `ShapeError`; the
message is the source's "point length ... is incompatible with grid
shape"); an integer `n < 1` raises `ValueError`; a `None` argument raises
`TypeError` (re-raised from the `int()` coercion); and a float `n` is
first truncated by `int()` — the call behaves exactly like the call with
the truncated integer, raising nothing on account of non-integrality. -/
theorem claim_C8_amended :
    (∀ (grid : List (List ℚ)) (point : List ℚ) (n : PyNum),
      point.length ≠ (grid.headD []).length →
      get_nearest_neighbours grid point n
        = .error (.valueError "point length is incompatible with grid shape"))
    ∧ (∀ (grid : List (List ℚ)) (point : List ℚ) (z : Int),
      point.length = (grid.headD []).length → z < 1 →
      get_nearest_neighbours grid point (.int z)
        = .error (.valueError
            "number of neighbours must be a positive integer-type"))
    ∧ (∀ (grid : List (List ℚ)) (point : List ℚ),
      point.length = (grid.headD []).length →
      get_nearest_neighbours grid point .none_
        = .error (.typeError "number of neighbours must be an integer-type"))
    ∧ (∀ (grid : List (List ℚ)) (point : List ℚ) (q : ℚ),
      get_nearest_neighbours grid point (.float q)
        = get_nearest_neighbours grid point (.int (ratTrunc q))) := by
  refine ⟨?_, ?_, ?_, ?_⟩
  · intro grid point n h
    unfold get_nearest_neighbours
    rw [if_pos h]
  · intro grid point z hlen hz
    unfold get_nearest_neighbours
    rw [if_neg (fun hx => hx hlen)]
    simp only [pyIntArg, exc_bind_ok]
    rw [if_pos hz]
  · intro grid point hlen
    unfold get_nearest_neighbours
    rw [if_neg (fun hx => hx hlen)]
    rfl
  · intro grid point q
    unfold get_nearest_neighbours
    rfl

/-- Witness for C8: concrete shape-mismatch, non-positive `n`, and `None`
calls, each raising the amended claim's exception. -/
theorem claim_C8_witness :
    get_nearest_neighbours [[0], [1]] [1, 2] (.int 1)
      = .error (.valueError "point length is incompatible with grid shape")
    ∧ get_nearest_neighbours [[0], [1]] [3] (.int 0)
      = .error (.valueError
          "number of neighbours must be a positive integer-type")
    ∧ get_nearest_neighbours [[0], [1]] [3] .none_
      = .error (.typeError "number of neighbours must be an integer-type") :=
  ⟨claim_C8_amended.1 [[0], [1]] [1, 2] (.int 1) (by decide),
   claim_C8_amended.2.1 [[0], [1]] [3] 0 (by decide) (by decide),
   claim_C8_amended.2.2.1 [[0], [1]] [3] (by decide)⟩

/-! ## C3 and C4 -/

/-- Claim C3 (code bug): `interpolate_flux` is specified to return a flux
vector of the native dispersion length, with NaN fill — never an
exception — for undefined or out-of-bounds points.  The code raises
instead: an out-of-bounds point raises `IndexError` inside the
`get_nearest_neighbours` call (models.py lines 127-128), and an in-bounds
point reaches `scipy.interpolate.griddata` (line 199) and raises
`NameError` because models.py never imports `scipy` — the function cannot
return a flux vector for any input. -/
theorem claim_C3_interpolate_flux_raises :
    interpolate_flux
      ⟨[[0], [1], [2]], [("blue", [100, 200])],
        [("blue", [[1, 1], [2, 2], [3, 3]])]⟩ [10] = .error .indexError
    ∧ interpolate_flux
      ⟨[[0], [1], [2]], [("blue", [100, 200])],
        [("blue", [[1, 1], [2, 2], [3, 3]])]⟩ [1]
      = .error (.nameError "scipy") := by
  constructor <;> with_unfolding_all decide

/-- Claim C4 (code bug): the round trip "interpolate at a stored grid
point, get the stored flux back" never succeeds: the point 2 is a member
of the grid (index 1, as `check_grid_point` confirms), yet
`interpolate_flux` at that very point raises `NameError` at the
`scipy.interpolate.griddata` call because models.py never imports `scipy`
(and the `kind` argument is not even forwarded to it). -/
theorem claim_C4_nearest_round_trip_fails :
    check_grid_point [[0], [2], [4]] [2] = .int 1
    ∧ interpolate_flux
      ⟨[[0], [2], [4]], [("red", [100, 200])],
        [("red", [[5, 5], [6, 6], [7, 7]])]⟩ [2]
      = .error (.nameError "scipy") := by
  constructor <;> with_unfolding_all decide

end Spectroscope
